import Mathlib

/-!
Shallow embedding of the ShopSmartAI recommendation subsystem
(`ecommerce/recommendation_engine.py` and `ecommerce/recommendation_service.py`)
together with proofs settling the claims about it.

Matrices are embedded as total functions `Nat → Nat → K` over a linear ordered
field, with explicit dimension arguments wherever the source iterates over
`range(n)`.  The pure numeric engine is parametric in the field so that the
claims can be stated over any field modelling the source's float arithmetic and
witnesses can be evaluated over `ℚ`; the service layer instantiates it at `ℝ`,
where the square roots of the cosine computation live.
-/

namespace ShopSmart

/-! ## Similarity engine: `recommendation_engine.py` -/

section Engine

variable {K : Type} [LinearOrderedField K]

/-- Descending comparison on the `(similarity, row index, rating)` tuples that
`fast_predict_rating` accumulates: Python's `list.sort(reverse=True)` orders
tuples by descending lexicographic comparison.  `tupleGe a b` says that `a`
sorts no later than `b`. -/
def tupleGe (a b : K × Nat × K) : Prop :=
  b.1 < a.1 ∨ (a.1 = b.1 ∧ (b.2.1 < a.2.1 ∨ (a.2.1 = b.2.1 ∧ b.2.2 ≤ a.2.2)))

instance : DecidableRel (tupleGe (K := K)) := fun _ _ =>
  inferInstanceAs (Decidable (_ ∨ _))

instance : IsTotal (K × Nat × K) (tupleGe (K := K)) := by
  constructor
  intro a b
  unfold tupleGe
  rcases lt_trichotomy a.1 b.1 with h | h | h
  · exact Or.inr (Or.inl h)
  · rcases lt_trichotomy a.2.1 b.2.1 with h2 | h2 | h2
    · exact Or.inr (Or.inr ⟨h.symm, Or.inl h2⟩)
    · rcases le_total b.2.2 a.2.2 with h3 | h3
      · exact Or.inl (Or.inr ⟨h, Or.inr ⟨h2, h3⟩⟩)
      · exact Or.inr (Or.inr ⟨h.symm, Or.inr ⟨h2.symm, h3⟩⟩)
    · exact Or.inl (Or.inr ⟨h, Or.inl h2⟩)
  · exact Or.inl (Or.inl h)

instance : IsTrans (K × Nat × K) (tupleGe (K := K)) := by
  constructor
  intro a b c hab hbc
  unfold tupleGe at *
  rcases hab with h1 | ⟨h1, h1'⟩
  · rcases hbc with h2 | ⟨h2, _⟩
    · exact Or.inl (h2.trans h1)
    · exact Or.inl (h2 ▸ h1)
  · rcases hbc with h2 | ⟨h2, h2'⟩
    · exact Or.inl (h1 ▸ h2)
    · refine Or.inr ⟨h1.trans h2, ?_⟩
      rcases h1' with h3 | ⟨h3, h3'⟩
      · rcases h2' with h4 | ⟨h4, _⟩
        · exact Or.inl (h4.trans h3)
        · exact Or.inl (h4 ▸ h3)
      · rcases h2' with h4 | ⟨h4, h4'⟩
        · exact Or.inl (h3 ▸ h4)
        · exact Or.inr ⟨h3.trans h4, h4'.trans h3'⟩

/-- The `similar_users` list of `fast_predict_rating`: one `(similarity, index,
rating)` tuple for every row `r ≠ user_idx` whose rating for the item is
strictly positive (source line 74: `if i != user_idx and ratings[i] > 0`). -/
def candidate_tuples (M S : Nat → Nat → K) (nUsers user_idx item_idx : Nat) :
    List (K × Nat × K) :=
  (List.range nUsers).filterMap fun r =>
    if r ≠ user_idx ∧ 0 < M r item_idx then some (S user_idx r, r, M r item_idx)
    else none

/-- `similar_users.sort(reverse=True); similar_users = similar_users[:k]`. -/
def selected_tuples (M S : Nat → Nat → K) (nUsers user_idx item_idx k : Nat) :
    List (K × Nat × K) :=
  ((candidate_tuples M S nUsers user_idx item_idx).insertionSort tupleGe).take k

/-- `fast_predict_rating` from `recommendation_engine.py` (lines 63-96).
The accumulation loop over the selected tuples adds `sim * rating` and
`abs(sim)` only when `sim > 0`. -/
def fast_predict_rating (M S : Nat → Nat → K) (nUsers user_idx item_idx k : Nat) :
    K :=
  let sel := selected_tuples M S nUsers user_idx item_idx k
  if sel = [] then 0
  else
    let weighted_sum := sel.foldl (fun acc t => if 0 < t.1 then acc + t.1 * t.2.2 else acc) 0
    let similarity_sum := sel.foldl (fun acc t => if 0 < t.1 then acc + |t.1| else acc) 0
    if 0 < similarity_sum then weighted_sum / similarity_sum else 0

/-- The `recommendations` list accumulated by `compute_user_recommendations`
(lines 104-111): one `(column, predicted)` pair for every column with
`matrix[user_idx][c] == 0` whose predicted rating (with the default `k = 10`
of `fast_predict_rating`) is strictly positive. -/
def rec_candidates (M S : Nat → Nat → K) (nUsers nItems user_idx : Nat) :
    List (Nat × K) :=
  (List.range nItems).filterMap fun c =>
    if M user_idx c = 0 then
      if 0 < fast_predict_rating M S nUsers user_idx c 10 then
        some (c, fast_predict_rating M S nUsers user_idx c 10)
      else none
    else none

/-- `compute_user_recommendations` from `recommendation_engine.py`
(lines 98-115): the candidate pairs sorted by descending score
(`recommendations.sort(key=lambda x: x[1], reverse=True)`) and truncated
to `n`. -/
def compute_user_recommendations (M S : Nat → Nat → K)
    (nUsers nItems user_idx n : Nat) : List (Nat × K) :=
  ((rec_candidates M S nUsers nItems user_idx).insertionSort
    (fun a b => b.2 ≤ a.2)).take n

/-- `predictRating` as worded by the specification (section 4.2), for the
refinement comparison with `fast_predict_rating`: a rater is any other row
with a NONZERO entry in the target column (the source instead requires a
strictly positive entry).  The selection order is the same stable descending
rule as the source, which the spec leaves free. -/
def spec_predict_rating (M S : Nat → Nat → K) (nUsers user_idx item_idx k : Nat) :
    K :=
  let raters := (List.range nUsers).filterMap fun r =>
    if r ≠ user_idx ∧ M r item_idx ≠ 0 then some (S user_idx r, r, M r item_idx)
    else none
  let sel := (raters.insertionSort tupleGe).take k
  if sel = [] then 0
  else
    let weighted_sum := sel.foldl (fun acc t => if 0 < t.1 then acc + t.1 * t.2.2 else acc) 0
    let similarity_sum := sel.foldl (fun acc t => if 0 < t.1 then acc + |t.1| else acc) 0
    if 0 < similarity_sum then weighted_sum / similarity_sum else 0

end Engine

/-! ## Cosine similarity over `ℝ`: `compute_cosine_similarity_matrix` and
`compute_item_similarity_matrix` -/

/-- `norms[i] = np.sqrt(np.sum(matrix[i, :] ** 2))` for an `n × m` matrix. -/
noncomputable def row_norm (M : Nat → Nat → ℝ) (m i : Nat) : ℝ :=
  Real.sqrt (∑ j ∈ Finset.range m, M i j ^ 2)

/-- `np.dot(matrix[i, :], matrix[j, :])`. -/
def row_dot (M : Nat → Nat → ℝ) (m i j : Nat) : ℝ :=
  ∑ t ∈ Finset.range m, M i t * M j t

/-- `compute_cosine_similarity_matrix` from `recommendation_engine.py`
(lines 3-31), as the entry function of the returned matrix: diagonal entries
are set to `1.0`, off-diagonal entries to `dot/(norm_i*norm_j)` when both row
norms are positive and to `0.0` otherwise.  The source fills each unordered
pair once and mirrors it, which this entry function reflects. -/
noncomputable def compute_cosine_similarity_matrix (M : Nat → Nat → ℝ) (m : Nat)
    (i j : Nat) : ℝ :=
  if i = j then 1
  else if 0 < row_norm M m i ∧ 0 < row_norm M m j then
    row_dot M m i j / (row_norm M m i * row_norm M m j)
  else 0

/-- `item_norms[i] = np.sqrt(np.sum(matrix[:, i] ** 2))` for an `n × m` matrix. -/
noncomputable def col_norm (M : Nat → Nat → ℝ) (n i : Nat) : ℝ :=
  Real.sqrt (∑ u ∈ Finset.range n, M u i ^ 2)

/-- `np.dot(matrix[:, i], matrix[:, j])`. -/
def col_dot (M : Nat → Nat → ℝ) (n i j : Nat) : ℝ :=
  ∑ u ∈ Finset.range n, M u i * M u j

/-- `compute_item_similarity_matrix` from `recommendation_engine.py`
(lines 33-61): the identical algorithm applied to the columns of the matrix. -/
noncomputable def compute_item_similarity_matrix (M : Nat → Nat → ℝ) (n : Nat)
    (i j : Nat) : ℝ :=
  if i = j then 1
  else if 0 < col_norm M n i ∧ 0 < col_norm M n j then
    col_dot M n i j / (col_norm M n i * col_norm M n j)
  else 0

/-! ## Service layer: `recommendation_service.py`

The database behind the Django ORM is embedded as explicit state: a list of
products and a list of interaction events.  (`ecommerce/models.py` is not part
of the sources; the two collaborator models are embedded with exactly the
fields the service reads: product id, category, active flag; event session
key, product id, interaction type, timestamp.)  The mutable singleton service
is embedded as a `ServiceState` value threaded through each operation. -/

structure Product where
  id : Nat
  category : Nat
  is_active : Bool
  deriving DecidableEq

structure Interaction where
  session_key : String
  product_id : Nat
  interaction_type : String
  timestamp : Nat
  deriving DecidableEq

structure DB where
  products : List Product
  interactions : List Interaction

/-- One element of the `{'product': ..., 'score': ..., 'reason': ...}` result
dicts, with the product represented by its identifier. -/
structure RecEntry where
  product_id : Nat
  score : ℝ
  reason : String

/-- The fields set in `RecommendationService.__init__`.  A mapping dict and
its reverse dict are together represented by one list: the position of a key
in the list is its index.  `content_features` carries only presence, see
`prepare_content_features`. -/
structure ServiceState where
  user_item_matrix : Option (Nat → Nat → ℝ)
  user_similarity_matrix : Option (Nat → Nat → ℝ)
  item_similarity_matrix : Option (Nat → Nat → ℝ)
  user_mapping : List String
  item_mapping : List Nat
  content_features : Option Unit
  is_trained : Bool

def initial_state : ServiceState :=
  { user_item_matrix := none
    user_similarity_matrix := none
    item_similarity_matrix := none
    user_mapping := []
    item_mapping := []
    content_features := none
    is_trained := false }

/-- `_get_interaction_weight` (lines 93-103): dict lookup with default `1.0`. -/
def get_interaction_weight (interaction_type : String) : ℝ :=
  if interaction_type = "view" then 1
  else if interaction_type = "like" then 3
  else if interaction_type = "dislike" then -2
  else if interaction_type = "purchase" then 5
  else 1

/-- The distinct `(session_key, product_id)` group keys of the events. -/
def interaction_keys (db : DB) : List (String × Nat) :=
  (db.interactions.map fun e => (e.session_key, e.product_id)).dedup

/-- The total weight the pandas `groupby(['session_key','product_id']).sum()`
assigns to one group: the sum of the weights of all events for the pair. -/
def aggregated_weight (db : DB) (s : String) (p : Nat) : ℝ :=
  ((db.interactions.filter fun e => decide (e.session_key = s ∧ e.product_id = p)).map
    fun e => get_interaction_weight e.interaction_type).sum

/-- The grouped dataframe `user_item_df`: one row per distinct
`(session_key, product_id)` pair carrying the summed weight.  (pandas sorts
the group keys; the resulting index assignment order is irrelevant to every
claim, and per the specification "order of first appearance irrelevant".) -/
def user_item_df (db : DB) : List ((String × Nat) × ℝ) :=
  (interaction_keys db).map fun k => (k, aggregated_weight db k.1 k.2)

/-- `unique_users`: the distinct session keys of the grouped dataframe. -/
def unique_sessions (db : DB) : List String :=
  ((user_item_df db).map fun g => g.1.1).dedup

/-- `unique_items`: the distinct product ids of the grouped dataframe. -/
def unique_products (db : DB) : List Nat :=
  ((user_item_df db).map fun g => g.1.2).dedup

/-- The `np.zeros` user-item matrix after the fill loop
`user_item_matrix[user_idx, item_idx] = row['weight']`: the cell of a valid
index pair holds the grouped weight of its `(session, product)` pair when
that pair is a group, and the initial `0.0` otherwise. -/
def built_matrix (db : DB) : Nat → Nat → ℝ := fun u i =>
  if u < (unique_sessions db).length ∧ i < (unique_products db).length then
    match (user_item_df db).find? (fun g =>
        decide (g.1 = ((unique_sessions db).getD u "", (unique_products db).getD i 0))) with
    | some g => g.2
    | none => 0
  else 0

/-- `prepare_interaction_data` (lines 36-91): returns `None` when there are no
events, otherwise stores the two mapping dicts (and their reverses) on the
service and returns the aggregated matrix. -/
def prepare_interaction_data (db : DB) (st : ServiceState) :
    Option (Nat → Nat → ℝ) × ServiceState :=
  if db.interactions = [] then (none, st)
  else
    (some (built_matrix db),
     { st with user_mapping := unique_sessions db, item_mapping := unique_products db })

/-- `prepare_content_features` (lines 105-134): `None` when there is no active
product, otherwise a feature matrix.  The TF-IDF/price features come from
sklearn, external to the sources, and no claim depends on their values; only
presence is retained. -/
def prepare_content_features (db : DB) : Option Unit :=
  if db.products.filter (fun p => p.is_active) = [] then none else some ()

/-- `train_model` (lines 136-166).  The source first assigns
`self.user_item_matrix = self.prepare_interaction_data()` (which itself
already stored fresh mappings when data exists) and only then tests for
`None`: on the no-data failure path the matrix field keeps the fresh `None`
value while every other field keeps its previous value. -/
noncomputable def train_model (db : DB) (st : ServiceState) : Bool × ServiceState :=
  let pr := prepare_interaction_data db st
  let st2 := { pr.2 with user_item_matrix := pr.1 }
  match pr.1 with
  | none => (false, st2)
  | some m =>
    (true, { st2 with
        user_similarity_matrix :=
          some (compute_cosine_similarity_matrix m st2.item_mapping.length)
        item_similarity_matrix :=
          some (compute_item_similarity_matrix m st2.user_mapping.length)
        content_features := prepare_content_features db
        is_trained := true })

/-- The Django annotation `Count('userinteraction')`: how many interaction
events reference the product. -/
def interaction_count (db : DB) (pid : Nat) : Nat :=
  (db.interactions.filter fun e => decide (e.product_id = pid)).length

/-- `Product.objects.get(id=pid, is_active=True)`. -/
def lookup_active (db : DB) (pid : Nat) : Option Product :=
  db.products.find? fun p => decide (p.id = pid ∧ p.is_active)

/-- `_get_popular_recommendations` (lines 249-266): the active products sorted
by descending interaction count (Django leaves the order among equal counts
unspecified; the stable sort fixes one such order), truncated to `n`, scored
`1.0` with reason `"popularity"`. -/
def get_popular_recommendations (db : DB) (n : Nat) : List RecEntry :=
  (((db.products.filter fun p => p.is_active).insertionSort
      (fun a b => interaction_count db b.id ≤ interaction_count db a.id)).take n).map
    fun p => { product_id := p.id, score := 1, reason := "popularity" }

/-- `_get_category_recommendations` (lines 268-284): empty when the product
does not exist, otherwise up to `n` other active products of the same
category, scored `1.0` with reason `"same_category"`. -/
def get_category_recommendations (db : DB) (pid n : Nat) : List RecEntry :=
  match db.products.find? (fun p => decide (p.id = pid)) with
  | none => []
  | some product =>
    ((db.products.filter fun p =>
        decide (p.category = product.category ∧ p.is_active ∧ p.id ≠ pid)).take n).map
      fun p => { product_id := p.id, score := 1, reason := "same_category" }

/-- `get_user_recommendations` (lines 168-208): train once when untrained;
fall back to popularity when still untrained or the session is unseen (also
when a stored matrix is `None` — the source reaches the same fallback through
its exception handler); otherwise collaborative filtering with the results
mapped back to active products. -/
noncomputable def get_user_recommendations (db : DB) (st : ServiceState)
    (session_key : String) (n : Nat) : List RecEntry × ServiceState :=
  let st1 := if st.is_trained then st else (train_model db st).2
  if ¬ st1.is_trained ∨ session_key ∉ st1.user_mapping then
    (get_popular_recommendations db n, st1)
  else
    match st1.user_item_matrix, st1.user_similarity_matrix with
    | some m, some s =>
      let user_idx := st1.user_mapping.indexOf session_key
      let recs := compute_user_recommendations m s st1.user_mapping.length
          st1.item_mapping.length user_idx n
      (recs.filterMap fun r =>
        match st1.item_mapping.get? r.1 with
        | none => none
        | some pid =>
          match lookup_active db pid with
          | none => none
          | some _ =>
            some { product_id := pid, score := r.2, reason := "collaborative_filtering" }, st1)
    | _, _ => (get_popular_recommendations db n, st1)

/-- `get_similar_products` (lines 210-247): train once when untrained; fall
back to category recommendations when still untrained or the product is
unseen (or a stored matrix is `None`, via the exception handler); otherwise
take `np.argsort(similarities)[::-1][1:n+1]` and keep entries with positive
similarity that map to active products, with reason `"item_similarity"`.
`np.argsort` is embedded as the stable ascending sort of the column indices
by similarity (ties in the order of the indices); numpy's default sort agrees
with it on every input used in a theorem below. -/
noncomputable def get_similar_products (db : DB) (st : ServiceState)
    (pid n : Nat) : List RecEntry × ServiceState :=
  let st1 := if st.is_trained then st else (train_model db st).2
  if ¬ st1.is_trained ∨ pid ∉ st1.item_mapping then
    (get_category_recommendations db pid n, st1)
  else
    match st1.item_similarity_matrix with
    | none => (get_category_recommendations db pid n, st1)
    | some s =>
      let item_idx := st1.item_mapping.indexOf pid
      let order := ((List.range st1.item_mapping.length).insertionSort
          (fun a b => s item_idx a ≤ s item_idx b)).reverse
      let similar_indices := (order.drop 1).take n
      (similar_indices.filterMap fun idx =>
        if 0 < s item_idx idx then
          match st1.item_mapping.get? idx with
          | none => none
          | some pid2 =>
            match lookup_active db pid2 with
            | none => none
            | some _ =>
              some { product_id := pid2, score := s item_idx idx, reason := "item_similarity" }
        else none, st1)

/-- Whether an event matches the `get_or_create` lookup tuple. -/
def matches_tuple (e : Interaction) (s : String) (p : Nat) (t : String) : Prop :=
  e.session_key = s ∧ e.product_id = p ∧ e.interaction_type = t

instance (e : Interaction) (s : String) (p : Nat) (t : String) :
    Decidable (matches_tuple e s p t) :=
  inferInstanceAs (Decidable (_ ∧ _))

/-- The source reads `models.timezone.now()` with `models = django.db.models`,
a module that has no `timezone` attribute (the clock lives in
`django.utils.timezone`); evaluating the `defaults` argument therefore raises
`AttributeError` on every call that reaches it. -/
def django_db_models_has_timezone : Bool := false

/-- `record_interaction` (lines 286-317).  A missing product raises
`Product.DoesNotExist`, caught: `False`.  For an existing product the source
builds the `get_or_create` arguments, which evaluates `models.timezone.now()`
and raises `AttributeError` before any database write; the blanket
`except Exception` handler catches it and returns `False`, so the upsert,
the count check and the periodic `train_model` call below it are dead code.
That intended continuation is embedded behind the (false) flag
`django_db_models_has_timezone` so that the dead path is still visible. -/
noncomputable def record_interaction (db : DB) (st : ServiceState)
    (session_key : String) (pid : Nat) (interaction_type : String) (now : Nat) :
    Bool × DB × ServiceState :=
  match db.products.find? (fun p => decide (p.id = pid)) with
  | none => (false, db, st)
  | some product =>
    if django_db_models_has_timezone then
      let has_match := db.interactions.any fun e =>
        decide (matches_tuple e session_key product.id interaction_type)
      let events :=
        if has_match then
          db.interactions.map (fun e =>
            if matches_tuple e session_key product.id interaction_type then
              { e with timestamp := now }
            else e)
        else db.interactions ++ [⟨session_key, product.id, interaction_type, now⟩]
      let db2 : DB := { db with interactions := events }
      let st2 := if db2.interactions.length % 50 = 0 then (train_model db2 st).2 else st
      (true, db2, st2)
    else (false, db, st)

/-! ## Helper lemmas -/

section Helpers

variable {K : Type} [LinearOrderedField K]

lemma mem_candidate_tuples {M S : Nat → Nat → K} {nUsers u i : Nat}
    {t : K × Nat × K} :
    t ∈ candidate_tuples M S nUsers u i ↔
      ∃ r, r < nUsers ∧ r ≠ u ∧ 0 < M r i ∧ t = (S u r, r, M r i) := by
  unfold candidate_tuples
  rw [List.mem_filterMap]
  constructor
  · rintro ⟨r, hr, hsome⟩
    rw [List.mem_range] at hr
    split at hsome
    · next h => exact ⟨r, hr, h.1, h.2, (Option.some.inj hsome).symm⟩
    · exact absurd hsome (by simp)
  · rintro ⟨r, hr, hne, hpos, rfl⟩
    refine ⟨r, List.mem_range.mpr hr, ?_⟩
    rw [if_pos ⟨hne, hpos⟩]

lemma candidate_tuples_nodup (M S : Nat → Nat → K) (nUsers u i : Nat) :
    (candidate_tuples M S nUsers u i).Nodup := by
  apply List.Nodup.filterMap _ (List.nodup_range nUsers)
  intro a a' b hb hb'
  rw [Option.mem_def] at hb hb'
  have ha : b.2.1 = a := by
    split at hb
    · exact congrArg (fun t => t.2.1) (Option.some.inj hb).symm
    · exact absurd hb (by simp)
  have ha' : b.2.1 = a' := by
    split at hb'
    · exact congrArg (fun t => t.2.1) (Option.some.inj hb').symm
    · exact absurd hb' (by simp)
  rw [← ha, ha']

lemma foldl_if_add {A : Type} (P : A → Prop) [DecidablePred P] (f : A → K)
    (l : List A) : ∀ a : K,
      l.foldl (fun acc t => if P t then acc + f t else acc) a
        = a + ((l.filter fun t => decide (P t)).map f).sum := by
  induction l with
  | nil => intro a; simp
  | cons t ts ih =>
    intro a
    by_cases h : P t
    · simp [List.foldl_cons, h, ih, add_assoc]
    · simp [List.foldl_cons, h, ih]

/-- The accumulation stage of `fast_predict_rating` as a closed formula over
the selected tuples. -/
lemma fast_predict_rating_eq (M S : Nat → Nat → K) (n u i k : Nat) :
    fast_predict_rating M S n u i k =
      (if 0 < (((selected_tuples M S n u i k).filter fun t =>
            decide (0 < t.1)).map fun t => |t.1|).sum then
        (((selected_tuples M S n u i k).filter fun t =>
            decide (0 < t.1)).map fun t => t.1 * t.2.2).sum /
          (((selected_tuples M S n u i k).filter fun t =>
            decide (0 < t.1)).map fun t => |t.1|).sum
      else 0) := by
  unfold fast_predict_rating
  dsimp only
  rw [foldl_if_add (A := K × Nat × K) (fun t => 0 < t.1) (fun t => t.1 * t.2.2),
    foldl_if_add (A := K × Nat × K) (fun t => 0 < t.1) (fun t => |t.1|), zero_add, zero_add]
  by_cases hnil : selected_tuples M S n u i k = []
  · rw [if_pos hnil, hnil]
    simp
  · rw [if_neg hnil]

end Helpers

/-! ## Claims -/

/-- C1 (amended): for every matrix `M`, similarity matrix `S`, target row,
target column and `k`, `fast_predict_rating` considers as candidate raters
exactly the rows `r ≠ user_idx` with `M r item_idx > 0` (the source condition
`ratings[i] > 0`; NOT every nonzero rating as the original claim states),
selects the `k` of them with the highest `S user_idx r`, and returns
`Σ (S[u][r]·M[r][i]) / Σ |S[u][r]|` over the selected raters with
`S[u][r] > 0`, returning `0` when there is no qualifying rater or that
denominator is not positive — in particular whenever no row other than
`user_idx` has a nonzero entry in the column. -/
theorem C1_fast_predict_rating_top_k {K : Type} [LinearOrderedField K]
    (M S : Nat → Nat → K) (nUsers user_idx item_idx k : Nat) :
    (∃ sel : List Nat,
      sel.Nodup ∧
      sel.length ≤ k ∧
      (∀ r ∈ sel, r < nUsers ∧ r ≠ user_idx ∧ 0 < M r item_idx) ∧
      (∀ r ∈ sel, ∀ r', r' < nUsers → r' ≠ user_idx → 0 < M r' item_idx →
        r' ∉ sel → S user_idx r' ≤ S user_idx r) ∧
      (sel.length < k →
        ∀ r', r' < nUsers → r' ≠ user_idx → 0 < M r' item_idx → r' ∈ sel) ∧
      fast_predict_rating M S nUsers user_idx item_idx k =
        (if 0 < ((sel.filter fun r => decide (0 < S user_idx r)).map
              fun r => |S user_idx r|).sum then
          ((sel.filter fun r => decide (0 < S user_idx r)).map
              fun r => S user_idx r * M r item_idx).sum /
            ((sel.filter fun r => decide (0 < S user_idx r)).map
              fun r => |S user_idx r|).sum
        else 0)) ∧
    ((∀ r, r < nUsers → r ≠ user_idx → M r item_idx = 0) →
      fast_predict_rating M S nUsers user_idx item_idx k = 0) := by
  classical
  have hperm : List.Perm
      ((candidate_tuples M S nUsers user_idx item_idx).insertionSort tupleGe)
      (candidate_tuples M S nUsers user_idx item_idx) := List.perm_insertionSort _ _
  have hpair : ((candidate_tuples M S nUsers user_idx item_idx).insertionSort
      tupleGe).Pairwise tupleGe := List.sorted_insertionSort _ _
  have hselT : selected_tuples M S nUsers user_idx item_idx k
      = ((candidate_tuples M S nUsers user_idx item_idx).insertionSort tupleGe).take k := rfl
  have hsub : List.Sublist (selected_tuples M S nUsers user_idx item_idx k)
      ((candidate_tuples M S nUsers user_idx item_idx).insertionSort tupleGe) := by
    rw [hselT]; exact List.take_sublist _ _
  have hform : ∀ t ∈ (candidate_tuples M S nUsers user_idx item_idx).insertionSort tupleGe,
      t.2.1 < nUsers ∧ t.2.1 ≠ user_idx ∧ 0 < M t.2.1 item_idx ∧
        t = (S user_idx t.2.1, t.2.1, M t.2.1 item_idx) := by
    intro t ht
    obtain ⟨r, h1, h2, h3, rfl⟩ := mem_candidate_tuples.mp (hperm.mem_iff.mp ht)
    exact ⟨h1, h2, h3, rfl⟩
  have hnodup : ((candidate_tuples M S nUsers user_idx item_idx).insertionSort
      tupleGe).Nodup :=
    hperm.nodup_iff.mpr (candidate_tuples_nodup M S nUsers user_idx item_idx)
  have hmem_sel : ∀ r, r ∈ (selected_tuples M S nUsers user_idx item_idx k).map
        (fun t => t.2.1) ↔
      (S user_idx r, r, M r item_idx) ∈ selected_tuples M S nUsers user_idx item_idx k := by
    intro r
    constructor
    · intro hr
      obtain ⟨t, ht, rfl⟩ := List.mem_map.mp hr
      have h := hform t (hsub.mem ht)
      exact h.2.2.2 ▸ ht
    · intro ht
      exact List.mem_map.mpr ⟨_, ht, rfl⟩
  constructor
  · refine ⟨(selected_tuples M S nUsers user_idx item_idx k).map (fun t => t.2.1),
      ?_, ?_, ?_, ?_, ?_, ?_⟩
    · refine List.Nodup.map_on ?_ (List.Nodup.sublist hsub hnodup)
      intro x hx y hy hxy
      have hxf := (hform x (hsub.mem hx)).2.2.2
      have hyf := (hform y (hsub.mem hy)).2.2.2
      rw [hxf, hyf, hxy]
    · rw [List.length_map, hselT, List.length_take]
      exact min_le_left _ _
    · intro r hr
      have h := hform _ (hsub.mem ((hmem_sel r).mp hr))
      exact ⟨h.1, h.2.1, h.2.2.1⟩
    · intro r hr r' h1 h2 h3 hnot
      have ht : (S user_idx r, r, M r item_idx)
          ∈ selected_tuples M S nUsers user_idx item_idx k := (hmem_sel r).mp hr
      have ht' : (S user_idx r', r', M r' item_idx)
          ∈ (candidate_tuples M S nUsers user_idx item_idx).insertionSort tupleGe :=
        hperm.mem_iff.mpr (mem_candidate_tuples.mpr ⟨r', h1, h2, h3, rfl⟩)
      rw [← List.take_append_drop k
        ((candidate_tuples M S nUsers user_idx item_idx).insertionSort tupleGe),
        List.mem_append] at ht'
      rcases ht' with ht' | ht'
      · exact absurd ((hmem_sel r').mpr (hselT ▸ ht')) hnot
      · have hge := hpair.rel_of_mem_take_of_mem_drop (hselT ▸ ht) ht'
        rcases hge with hlt | ⟨heq, _⟩
        · exact le_of_lt hlt
        · exact le_of_eq heq.symm
    · intro hlen r' h1 h2 h3
      rw [List.length_map, hselT, List.length_take] at hlen
      have hlt : ((candidate_tuples M S nUsers user_idx item_idx).insertionSort
          tupleGe).length < k := by
        rcases Nat.lt_or_ge ((candidate_tuples M S nUsers user_idx
            item_idx).insertionSort tupleGe).length k with h | h
        · exact h
        · rw [min_eq_left h] at hlen
          exact absurd hlen (lt_irrefl k)
      have htake : selected_tuples M S nUsers user_idx item_idx k
          = (candidate_tuples M S nUsers user_idx item_idx).insertionSort tupleGe := by
        rw [hselT]
        exact List.take_of_length_le (le_of_lt hlt)
      refine (hmem_sel r').mpr ?_
      rw [htake]
      exact hperm.mem_iff.mpr (mem_candidate_tuples.mpr ⟨r', h1, h2, h3, rfl⟩)
    · rw [fast_predict_rating_eq]
      have hfilter : ((selected_tuples M S nUsers user_idx item_idx k).map
            (fun t => t.2.1)).filter (fun r => decide (0 < S user_idx r))
          = ((selected_tuples M S nUsers user_idx item_idx k).filter
            (fun t => decide (0 < t.1))).map (fun t => t.2.1) := by
        rw [List.filter_map]
        congr 1
        apply List.filter_congr
        intro t ht
        have h := (hform t (hsub.mem ht)).2.2.2
        simp only [Function.comp_apply]
        rw [h]
      rw [hfilter, List.map_map, List.map_map]
      have hnum : ∀ t ∈ (selected_tuples M S nUsers user_idx item_idx k).filter
            (fun t => decide (0 < t.1)),
          ((fun r => S user_idx r * M r item_idx) ∘ fun t => t.2.1) t
            = t.1 * t.2.2 := by
        intro t ht
        have h := (hform t (hsub.mem (List.mem_of_mem_filter ht))).2.2.2
        simp only [Function.comp_apply]
        rw [h]
      have hden : ∀ t ∈ (selected_tuples M S nUsers user_idx item_idx k).filter
            (fun t => decide (0 < t.1)),
          ((fun r => |S user_idx r|) ∘ fun t => t.2.1) t = |t.1| := by
        intro t ht
        have h := (hform t (hsub.mem (List.mem_of_mem_filter ht))).2.2.2
        simp only [Function.comp_apply]
        rw [h]
      rw [List.map_congr_left hnum, List.map_congr_left hden]
  · intro hzero
    have hcand : candidate_tuples M S nUsers user_idx item_idx = [] := by
      rw [candidate_tuples, List.filterMap_eq_nil_iff]
      intro r hr
      rw [List.mem_range] at hr
      rw [if_neg]
      rintro ⟨hne, hpos⟩
      rw [hzero r hr hne] at hpos
      exact lt_irrefl 0 hpos
    rw [fast_predict_rating_eq, hselT, hcand]
    simp

/-- C1 counterexample input: two users; user 1 holds the aggregate rating
`-2` for item 0 (e.g. one recorded dislike), and `S[0][1] = 1`. -/
def Mc1 : Nat → Nat → ℚ := fun r c => if r = 1 ∧ c = 0 then -2 else 0

def Sc1 : Nat → Nat → ℚ := fun r c => if r = c then 1 else if r = 0 ∧ c = 1 then 1 else 0

/-- C10: `fast_predict_rating` sorts its candidate `(similarity, row index,
rating)` tuples by the deterministic descending lexicographic rule `tupleGe`
(the selection it then truncates is `selected_tuples`, a pure function of the
inputs, so the prediction is deterministic by construction).  Along the
selected list the similarity is non-increasing and a tie on similarity is
ordered by the LARGER row index first; consequently whenever two candidate
raters tie on similarity and only one of them can still be selected, it is
the one with the larger row index: if the smaller-indexed one got in, the
larger-indexed one did too. -/
theorem C10_tie_break_descending_index {K : Type} [LinearOrderedField K]
    (M S : Nat → Nat → K) (nUsers user_idx item_idx k : Nat) :
    (((selected_tuples M S nUsers user_idx item_idx k).map fun t => t.2.1).Pairwise
      fun a b => S user_idx b < S user_idx a ∨
        (S user_idx a = S user_idx b ∧ b < a)) ∧
    (∀ r r', r < nUsers → r ≠ user_idx → 0 < M r item_idx →
      r' < nUsers → r' ≠ user_idx → 0 < M r' item_idx →
      S user_idx r = S user_idx r' → r' < r →
      r' ∈ ((selected_tuples M S nUsers user_idx item_idx k).map fun t => t.2.1) →
      r ∈ ((selected_tuples M S nUsers user_idx item_idx k).map fun t => t.2.1)) := by
  classical
  have hperm : List.Perm
      ((candidate_tuples M S nUsers user_idx item_idx).insertionSort tupleGe)
      (candidate_tuples M S nUsers user_idx item_idx) := List.perm_insertionSort _ _
  have hpair : ((candidate_tuples M S nUsers user_idx item_idx).insertionSort
      tupleGe).Pairwise tupleGe := List.sorted_insertionSort _ _
  have hselT : selected_tuples M S nUsers user_idx item_idx k
      = ((candidate_tuples M S nUsers user_idx item_idx).insertionSort tupleGe).take k := rfl
  have hsub : List.Sublist (selected_tuples M S nUsers user_idx item_idx k)
      ((candidate_tuples M S nUsers user_idx item_idx).insertionSort tupleGe) := by
    rw [hselT]; exact List.take_sublist _ _
  have hform : ∀ t ∈ (candidate_tuples M S nUsers user_idx item_idx).insertionSort tupleGe,
      t.2.1 < nUsers ∧ t.2.1 ≠ user_idx ∧ 0 < M t.2.1 item_idx ∧
        t = (S user_idx t.2.1, t.2.1, M t.2.1 item_idx) := by
    intro t ht
    obtain ⟨r, h1, h2, h3, rfl⟩ := mem_candidate_tuples.mp (hperm.mem_iff.mp ht)
    exact ⟨h1, h2, h3, rfl⟩
  have hnodup : ((candidate_tuples M S nUsers user_idx item_idx).insertionSort
      tupleGe).Nodup :=
    hperm.nodup_iff.mpr (candidate_tuples_nodup M S nUsers user_idx item_idx)
  constructor
  · rw [List.pairwise_map]
    have hp : (selected_tuples M S nUsers user_idx item_idx k).Pairwise
        (fun a b => tupleGe a b ∧ a ≠ b) :=
      (hpair.and hnodup).sublist hsub
    refine hp.imp_of_mem ?_
    intro a b ha hb hab
    have hfa := hform a (hsub.mem ha)
    have hfb := hform b (hsub.mem hb)
    rcases hab.1 with hlt | ⟨heq, hinner⟩
    · left
      rw [hfa.2.2.2, hfb.2.2.2] at hlt
      exact hlt
    · right
      refine ⟨by rw [hfa.2.2.2, hfb.2.2.2] at heq; exact heq, ?_⟩
      rcases hinner with hlt2 | ⟨heq2, _⟩
      · exact hlt2
      · exact absurd (by rw [hfa.2.2.2, hfb.2.2.2, heq2]) hab.2
  · intro r r' h1 h2 h3 h1' h2' h3' heq hlt hmem
    obtain ⟨t', ht', hproj⟩ := List.mem_map.mp hmem
    have hft' := hform t' (hsub.mem ht')
    have ht'c : t' = (S user_idx r', r', M r' item_idx) := by
      rw [hft'.2.2.2, hproj]
    have htr : (S user_idx r, r, M r item_idx)
        ∈ (candidate_tuples M S nUsers user_idx item_idx).insertionSort tupleGe :=
      hperm.mem_iff.mpr (mem_candidate_tuples.mpr ⟨r, h1, h2, h3, rfl⟩)
    rw [← List.take_append_drop k
      ((candidate_tuples M S nUsers user_idx item_idx).insertionSort tupleGe),
      List.mem_append] at htr
    rcases htr with htr | htr
    · exact List.mem_map.mpr ⟨_, hselT ▸ htr, rfl⟩
    · exfalso
      have hge := hpair.rel_of_mem_take_of_mem_drop (hselT ▸ ht'c ▸ ht') htr
      dsimp only [tupleGe] at hge
      rcases hge with hsim | ⟨hsim, hidx⟩
      · rw [heq] at hsim
        exact lt_irrefl _ hsim
      · rcases hidx with hi | ⟨hi, _⟩
        · exact Nat.lt_irrefl _ (hi.trans hlt)
        · rw [hi] at hlt
          exact Nat.lt_irrefl _ hlt

/-- C9: `compute_user_recommendations` returns at most `n` pairs, each pairing
a column the target row has not interacted with (`M[u][c] == 0`) with its
strictly positive predicted rating, sorted by descending score; and it only
omits a qualifying column when the result was truncated at `n`. -/
theorem C9_compute_user_recommendations_top_n {K : Type} [LinearOrderedField K]
    (M S : Nat → Nat → K) (nUsers nItems user_idx n : Nat) :
    (compute_user_recommendations M S nUsers nItems user_idx n).length ≤ n ∧
    (∀ p ∈ compute_user_recommendations M S nUsers nItems user_idx n,
      p.1 < nItems ∧ M user_idx p.1 = 0 ∧ 0 < p.2 ∧
        p.2 = fast_predict_rating M S nUsers user_idx p.1 10) ∧
    ((compute_user_recommendations M S nUsers nItems user_idx n).Pairwise
      fun a b => b.2 ≤ a.2) ∧
    ((compute_user_recommendations M S nUsers nItems user_idx n).length < n →
      ∀ c, c < nItems → M user_idx c = 0 →
        0 < fast_predict_rating M S nUsers user_idx c 10 →
        c ∈ (compute_user_recommendations M S nUsers nItems user_idx n).map
          Prod.fst) := by
  classical
  haveI htot : IsTotal (Nat × K) (fun a b => b.2 ≤ a.2) := ⟨fun a b => le_total b.2 a.2⟩
  haveI htrans : IsTrans (Nat × K) (fun a b => b.2 ≤ a.2) :=
    ⟨fun _ _ _ h1 h2 => le_trans h2 h1⟩
  have hmemc : ∀ p : Nat × K, p ∈ rec_candidates M S nUsers nItems user_idx ↔
      (p.1 < nItems ∧ M user_idx p.1 = 0 ∧ 0 < p.2 ∧
        p.2 = fast_predict_rating M S nUsers user_idx p.1 10) := by
    intro p
    unfold rec_candidates
    rw [List.mem_filterMap]
    constructor
    · rintro ⟨c, hc, hsome⟩
      rw [List.mem_range] at hc
      split at hsome
      · split at hsome
        · next hz hpos =>
          obtain rfl := (Option.some.inj hsome).symm
          exact ⟨hc, hz, hpos, rfl⟩
        · exact absurd hsome (by simp)
      · exact absurd hsome (by simp)
    · rintro ⟨hc, hz, hpos, hpred⟩
      refine ⟨p.1, List.mem_range.mpr hc, ?_⟩
      rw [if_pos hz, if_pos (hpred ▸ hpos)]
      rw [← hpred]
  have hperm : List.Perm
      ((rec_candidates M S nUsers nItems user_idx).insertionSort (fun a b => b.2 ≤ a.2))
      (rec_candidates M S nUsers nItems user_idx) := List.perm_insertionSort _ _
  have hpair : ((rec_candidates M S nUsers nItems user_idx).insertionSort
      (fun a b => b.2 ≤ a.2)).Pairwise (fun a b => b.2 ≤ a.2) :=
    List.sorted_insertionSort _ _
  have hdef : compute_user_recommendations M S nUsers nItems user_idx n
      = ((rec_candidates M S nUsers nItems user_idx).insertionSort
        (fun a b => b.2 ≤ a.2)).take n := rfl
  have hsub : List.Sublist (compute_user_recommendations M S nUsers nItems user_idx n)
      ((rec_candidates M S nUsers nItems user_idx).insertionSort (fun a b => b.2 ≤ a.2)) := by
    rw [hdef]; exact List.take_sublist _ _
  refine ⟨?_, ?_, ?_, ?_⟩
  · rw [hdef, List.length_take]
    exact min_le_left _ _
  · intro p hp
    exact (hmemc p).mp (hperm.mem_iff.mp (hsub.mem hp))
  · exact hpair.sublist hsub
  · intro hlen c hc hz hpos
    rw [hdef, List.length_take] at hlen
    have hlt : ((rec_candidates M S nUsers nItems user_idx).insertionSort
        (fun a b => b.2 ≤ a.2)).length < n := by
      rcases Nat.lt_or_ge ((rec_candidates M S nUsers nItems user_idx).insertionSort
          (fun a b => b.2 ≤ a.2)).length n with h | h
      · exact h
      · rw [min_eq_left h] at hlen
        exact absurd hlen (lt_irrefl n)
    have htake : compute_user_recommendations M S nUsers nItems user_idx n
        = (rec_candidates M S nUsers nItems user_idx).insertionSort
          (fun a b => b.2 ≤ a.2) := by
      rw [hdef]
      exact List.take_of_length_le (le_of_lt hlt)
    refine List.mem_map.mpr ⟨(c, fast_predict_rating M S nUsers user_idx c 10), ?_, rfl⟩
    rw [htake]
    exact hperm.mem_iff.mpr ((hmemc _).mpr ⟨hc, hz, hpos, rfl⟩)

/-- Cauchy-Schwarz for the embedded dot product and norms:
`|row_dot M m i j| ≤ row_norm M m i * row_norm M m j`. -/
lemma abs_row_dot_le (M : Nat → Nat → ℝ) (m i j : Nat) :
    |row_dot M m i j| ≤ row_norm M m i * row_norm M m j := by
  rw [abs_le]
  constructor
  · have h := Real.sum_mul_le_sqrt_mul_sqrt (Finset.range m)
      (fun t => -(M i t)) fun t => M j t
    have e1 : (∑ t ∈ Finset.range m, -(M i t) * M j t) = -(row_dot M m i j) := by
      rw [row_dot, ← Finset.sum_neg_distrib]
      exact Finset.sum_congr rfl fun t _ => by ring
    have e2 : (∑ t ∈ Finset.range m, (-(M i t)) ^ 2)
        = ∑ t ∈ Finset.range m, M i t ^ 2 :=
      Finset.sum_congr rfl fun t _ => by ring
    rw [e1, e2] at h
    rw [row_norm, row_norm]
    linarith
  · rw [row_norm, row_norm]
    exact Real.sum_mul_le_sqrt_mul_sqrt _ _ _

/-- C2 (amended): the cosine similarity matrix is symmetric, every diagonal
entry is exactly `1.0` (also for zero rows, contrary to the original claim),
every entry lies in `[-1, 1]`, every OFF-diagonal entry with a zero-norm row
on either side is `0.0`, and every pair of rows with nonzero norms gets
`dot/(norm_i*norm_j)` (on the diagonal that quotient equals the stored
`1.0`). -/
theorem C2_cosine_similarity_matrix_props (M : Nat → Nat → ℝ) (m i j : Nat) :
    compute_cosine_similarity_matrix M m i j
      = compute_cosine_similarity_matrix M m j i ∧
    compute_cosine_similarity_matrix M m i i = 1 ∧
    -1 ≤ compute_cosine_similarity_matrix M m i j ∧
    compute_cosine_similarity_matrix M m i j ≤ 1 ∧
    (i ≠ j → row_norm M m i = 0 ∨ row_norm M m j = 0 →
      compute_cosine_similarity_matrix M m i j = 0) ∧
    (row_norm M m i ≠ 0 → row_norm M m j ≠ 0 →
      compute_cosine_similarity_matrix M m i j
        = row_dot M m i j / (row_norm M m i * row_norm M m j)) := by
  have hnn : ∀ a b : Nat, 0 ≤ row_norm M m a := fun a _ => Real.sqrt_nonneg _
  have habs : ∀ a b : Nat, |compute_cosine_similarity_matrix M m a b| ≤ 1 := by
    intro a b
    unfold compute_cosine_similarity_matrix
    by_cases hab : a = b
    · rw [if_pos hab]
      norm_num
    · rw [if_neg hab]
      by_cases hn : 0 < row_norm M m a ∧ 0 < row_norm M m b
      · rw [if_pos hn]
        have hpos : 0 < row_norm M m a * row_norm M m b := mul_pos hn.1 hn.2
        rw [abs_div, abs_of_pos hpos, div_le_one hpos]
        exact abs_row_dot_le M m a b
      · rw [if_neg hn]
        norm_num
  refine ⟨?_, ?_, ?_, ?_, ?_, ?_⟩
  · unfold compute_cosine_similarity_matrix
    by_cases hij : i = j
    · rw [if_pos hij, if_pos hij.symm]
    · rw [if_neg hij, if_neg (Ne.symm hij)]
      have hdot : row_dot M m i j = row_dot M m j i :=
        Finset.sum_congr rfl fun t _ => mul_comm _ _
      by_cases hn : 0 < row_norm M m i ∧ 0 < row_norm M m j
      · rw [if_pos hn, if_pos ⟨hn.2, hn.1⟩, hdot, mul_comm]
      · rw [if_neg hn, if_neg fun h => hn ⟨h.2, h.1⟩]
  · unfold compute_cosine_similarity_matrix
    rw [if_pos rfl]
  · exact neg_le_of_abs_le (habs i j)
  · exact le_of_abs_le (habs i j)
  · intro hij hz
    unfold compute_cosine_similarity_matrix
    rw [if_neg hij, if_neg]
    rintro ⟨hi, hj⟩
    rcases hz with hz | hz
    · rw [hz] at hi
      exact lt_irrefl 0 hi
    · rw [hz] at hj
      exact lt_irrefl 0 hj
  · intro hi hj
    have hipos : 0 < row_norm M m i := lt_of_le_of_ne (hnn i j) (Ne.symm hi)
    have hjpos : 0 < row_norm M m j := lt_of_le_of_ne (hnn j i) (Ne.symm hj)
    unfold compute_cosine_similarity_matrix
    by_cases hij : i = j
    · rw [if_pos hij]
      subst hij
      have hsq : row_norm M m i * row_norm M m i
          = ∑ t ∈ Finset.range m, M i t ^ 2 := by
        rw [row_norm]
        exact Real.mul_self_sqrt (Finset.sum_nonneg fun t _ => sq_nonneg _)
      have hdd : row_dot M m i i = ∑ t ∈ Finset.range m, M i t ^ 2 :=
        Finset.sum_congr rfl fun t _ => by ring
      rw [hdd, ← hsq, div_self (ne_of_gt (mul_pos hipos hipos))]
    · rw [if_neg hij, if_pos ⟨hipos, hjpos⟩]

/-- C2 counterexample: on the 1×1 zero matrix, row 0 has zero norm, yet the
diagonal entry `(0,0)` is the stored `1.0`, not the `0.0` the claim assigns
to every entry with a zero-norm row. -/
theorem C2_counterexample :
    row_norm (fun _ _ => 0) 1 0 = 0 ∧
    compute_cosine_similarity_matrix (fun _ _ => 0) 1 0 0 = 1 := by
  constructor
  · rw [row_norm]
    norm_num
  · rw [compute_cosine_similarity_matrix, if_pos rfl]

/-- C4 (amended): `train_model` mutates the service fields in place instead of
swapping in a complete state: it returns failure exactly when there are no
interaction events, and on that failure the similarity matrices, the
mappings, the content features and the trained flag keep their previous
values while the stored interaction matrix is overwritten with the freshly
prepared `None` — the previous matrix is not restored. -/
theorem C4_train_model_failure_overwrites_matrix (db : DB) (st : ServiceState) :
    ((train_model db st).1 = false ↔ db.interactions = []) ∧
    (db.interactions = [] →
      (train_model db st).2 = { st with user_item_matrix := none }) := by
  by_cases h : db.interactions = []
  · constructor
    · simp [train_model, prepare_interaction_data, h]
    · intro _
      simp [train_model, prepare_interaction_data, h]
  · constructor
    · simp [train_model, prepare_interaction_data, h]
    · intro h2
      exact absurd h2 h

def stale_state : ServiceState :=
  { user_item_matrix := some fun _ _ => 5
    user_similarity_matrix := some fun _ _ => 1
    item_similarity_matrix := some fun _ _ => 1
    user_mapping := ["s"]
    item_mapping := [7]
    content_features := some ()
    is_trained := true }

def empty_db : DB := { products := [], interactions := [] }

/-- C4 counterexample: retraining a previously trained state on a database
with no interaction events returns failure AND clears the stored interaction
matrix, so the pre-retrain trained state is not left unchanged as the claim
requires. -/
theorem C4_counterexample :
    (train_model empty_db stale_state).1 = false ∧
    (train_model empty_db stale_state).2.user_item_matrix = none ∧
    stale_state.user_item_matrix ≠ none := by
  refine ⟨?_, ?_, by simp [stale_state]⟩ <;>
    simp [train_model, prepare_interaction_data, empty_db]

/-- C4 witness at a concrete input: empty event log, previously trained
state. -/
theorem C4_witness :
    ((train_model empty_db stale_state).1 = false ↔ empty_db.interactions = []) ∧
    (empty_db.interactions = [] →
      (train_model empty_db stale_state).2
        = { stale_state with user_item_matrix := none }) :=
  C4_train_model_failure_overwrites_matrix empty_db stale_state

/-- C6 is a code bug: the periodic-retrain step of `record_interaction` is
dead code.  Every call aborts with the `AttributeError` raised by
`models.timezone.now()` (and a missing product aborts even earlier), so the
count-threshold check never runs, `train_model` is never triggered — at the
50th event or any other — and the service state comes back untouched. -/
theorem C6_retrain_never_triggered (db : DB) (st : ServiceState)
    (s : String) (pid : Nat) (t : String) (now : Nat) :
    (record_interaction db st s pid t now).2.2 = st := by
  unfold record_interaction
  cases db.products.find? (fun p => decide (p.id = pid)) with
  | none => rfl
  | some p => simp [django_db_models_has_timezone]

/-- C7 is a code bug: `record_interaction` returns failure and records
nothing for EVERY input — in particular when the product exists — because
evaluating the `get_or_create` defaults raises `AttributeError`
(`django.db.models` has no `timezone`), which the blanket handler converts
to `False` before any write happens.  The claim instead requires an upsert
and success whenever the product exists. -/
theorem C7_record_interaction_always_fails (db : DB) (st : ServiceState)
    (s : String) (pid : Nat) (t : String) (now : Nat) :
    (record_interaction db st s pid t now).1 = false ∧
    (record_interaction db st s pid t now).2.1 = db := by
  unfold record_interaction
  cases db.products.find? (fun p => decide (p.id = pid)) with
  | none => exact ⟨rfl, rfl⟩
  | some p => simp [django_db_models_has_timezone]

def two_likes_db : DB :=
  { products := [⟨1, 0, true⟩]
    interactions := [⟨"s1", 1, "like", 0⟩, ⟨"s1", 1, "like", 1⟩] }

/-- C5: the interaction weight is the total function view↦1, like↦3,
dislike↦−2, purchase↦5, default 1; every valid cell of the matrix built from
the event list is the SUM of the weights of all events for that
(session, product) pair; and for the event list with two likes on one pair
the cell holds 6, not 3. -/
theorem C5_weights_and_cell_aggregation :
    (get_interaction_weight "view" = 1 ∧ get_interaction_weight "like" = 3 ∧
      get_interaction_weight "dislike" = -2 ∧ get_interaction_weight "purchase" = 5) ∧
    (∀ t, t ≠ "view" → t ≠ "like" → t ≠ "dislike" → t ≠ "purchase" →
      get_interaction_weight t = 1) ∧
    (∀ (db : DB) (u i : Nat), u < (unique_sessions db).length →
      i < (unique_products db).length →
      built_matrix db u i
        = ((db.interactions.filter fun e =>
            decide (e.session_key = (unique_sessions db).getD u "" ∧
              e.product_id = (unique_products db).getD i 0)).map
          fun e => get_interaction_weight e.interaction_type).sum) ∧
    built_matrix two_likes_db 0 0 = 6 := by
  refine ⟨⟨rfl, rfl, rfl, rfl⟩, ?_, ?_, ?_⟩
  · intro t h1 h2 h3 h4
    simp [get_interaction_weight, h1, h2, h3, h4]
  · intro db u i hu hi
    have hrhs : ((db.interactions.filter fun e =>
        decide (e.session_key = (unique_sessions db).getD u "" ∧
          e.product_id = (unique_products db).getD i 0)).map
        fun e => get_interaction_weight e.interaction_type).sum
        = aggregated_weight db ((unique_sessions db).getD u "")
            ((unique_products db).getD i 0) := rfl
    rw [hrhs]
    unfold built_matrix
    rw [if_pos ⟨hu, hi⟩]
    cases hfind : (user_item_df db).find? (fun g =>
        decide (g.1 = ((unique_sessions db).getD u "",
          (unique_products db).getD i 0))) with
    | some g =>
      have hmem := List.mem_of_find?_eq_some hfind
      have hkey : g.1 = ((unique_sessions db).getD u "",
          (unique_products db).getD i 0) := by
        have := List.find?_some hfind
        exact of_decide_eq_true this
      obtain ⟨k, hk, rfl⟩ := List.mem_map.mp hmem
      dsimp only
      dsimp only at hkey
      rw [hkey]
    | none =>
      have hnone := List.find?_eq_none.mp hfind
      have hempty : db.interactions.filter (fun e =>
          decide (e.session_key = (unique_sessions db).getD u "" ∧
            e.product_id = (unique_products db).getD i 0)) = [] := by
        rw [List.filter_eq_nil_iff]
        intro e he hdec
        have hep := of_decide_eq_true hdec
        have hkey_mem : ((unique_sessions db).getD u "",
            (unique_products db).getD i 0) ∈ interaction_keys db := by
          unfold interaction_keys
          rw [List.mem_dedup]
          refine List.mem_map.mpr ⟨e, he, ?_⟩
          rw [hep.1, hep.2]
        have : (((unique_sessions db).getD u "", (unique_products db).getD i 0),
            aggregated_weight db ((unique_sessions db).getD u "")
              ((unique_products db).getD i 0)) ∈ user_item_df db := by
          unfold user_item_df
          exact List.mem_map.mpr ⟨_, hkey_mem, rfl⟩
        have hcontr := hnone _ this
        simp at hcontr
      unfold aggregated_weight
      rw [hempty]
      rfl
  · norm_num [built_matrix, unique_sessions, unique_products, user_item_df,
      interaction_keys, aggregated_weight, get_interaction_weight, two_likes_db,
      List.dedup, List.pwFilter, List.find?,
      show ("like" : String) ≠ "view" by decide]

/-- C8: when the service is still untrained after the single training attempt
that `get_user_recommendations` makes, or the session key is absent from the
session mapping, the result is exactly the popularity fallback; the fallback
holds at most `n` entries, each an active product scored `1.0` with reason
`"popularity"`, ordered by non-increasing interaction count (of any kind),
and an active product is left out only when every returned entry has at
least as many recorded interactions. -/
theorem C8_unseen_session_popularity (db : DB) (st : ServiceState) (s : String)
    (n : Nat)
    (h : ¬ (if st.is_trained then st else (train_model db st).2).is_trained
       ∨ s ∉ (if st.is_trained then st else (train_model db st).2).user_mapping) :
    (get_user_recommendations db st s n).1 = get_popular_recommendations db n ∧
    (get_popular_recommendations db n).length ≤ n ∧
    (∀ e ∈ get_popular_recommendations db n, e.score = 1 ∧ e.reason = "popularity" ∧
      ∃ p ∈ db.products, p.is_active ∧ p.id = e.product_id) ∧
    ((get_popular_recommendations db n).Pairwise fun a b =>
      interaction_count db b.product_id ≤ interaction_count db a.product_id) ∧
    (∀ p ∈ db.products, p.is_active = true →
      (∀ e ∈ get_popular_recommendations db n, e.product_id ≠ p.id) →
      ∀ e ∈ get_popular_recommendations db n,
        interaction_count db p.id ≤ interaction_count db e.product_id) := by
  classical
  haveI : IsTotal Product (fun a b =>
      interaction_count db b.id ≤ interaction_count db a.id) :=
    ⟨fun a b => le_total _ _⟩
  haveI : IsTrans Product (fun a b =>
      interaction_count db b.id ≤ interaction_count db a.id) :=
    ⟨fun _ _ _ h1 h2 => le_trans h2 h1⟩
  have hperm : List.Perm
      ((db.products.filter fun p => p.is_active).insertionSort
        (fun a b => interaction_count db b.id ≤ interaction_count db a.id))
      (db.products.filter fun p => p.is_active) := List.perm_insertionSort _ _
  have hpair : ((db.products.filter fun p => p.is_active).insertionSort
      (fun a b => interaction_count db b.id ≤ interaction_count db a.id)).Pairwise
      (fun a b => interaction_count db b.id ≤ interaction_count db a.id) :=
    List.sorted_insertionSort _ _
  have hdef : get_popular_recommendations db n
      = (((db.products.filter fun p => p.is_active).insertionSort
          (fun a b => interaction_count db b.id ≤ interaction_count db a.id)).take
            n).map
        (fun p => { product_id := p.id, score := 1, reason := "popularity" }) := rfl
  have hmem_take : ∀ q, q ∈ ((db.products.filter fun p => p.is_active).insertionSort
        (fun a b => interaction_count db b.id ≤ interaction_count db a.id)).take n →
      q ∈ db.products ∧ q.is_active = true := by
    intro q hq
    have hq2 := hperm.mem_iff.mp ((List.take_sublist _ _).mem hq)
    exact List.mem_filter.mp hq2
  refine ⟨?_, ?_, ?_, ?_, ?_⟩
  · unfold get_user_recommendations
    dsimp only
    rw [if_pos h]
  · rw [hdef, List.length_map, List.length_take]
    exact min_le_left _ _
  · intro e he
    rw [hdef] at he
    obtain ⟨q, hq, rfl⟩ := List.mem_map.mp he
    have hq2 := hmem_take q hq
    exact ⟨rfl, rfl, q, hq2.1, hq2.2, rfl⟩
  · rw [hdef, List.pairwise_map]
    exact (hpair.sublist (List.take_sublist _ _)).imp fun hab => hab
  · intro p hp hact hnone e he
    have hpf : p ∈ (db.products.filter fun q => q.is_active) :=
      List.mem_filter.mpr ⟨hp, hact⟩
    have hps := hperm.mem_iff.mpr hpf
    rw [← List.take_append_drop n
      ((db.products.filter fun q => q.is_active).insertionSort
        (fun a b => interaction_count db b.id ≤ interaction_count db a.id)),
      List.mem_append] at hps
    rcases hps with hps | hps
    · exfalso
      have : ({ product_id := p.id, score := 1, reason := "popularity" } : RecEntry)
          ∈ get_popular_recommendations db n := by
        rw [hdef]
        exact List.mem_map.mpr ⟨p, hps, rfl⟩
      exact hnone _ this rfl
    · rw [hdef] at he
      obtain ⟨q, hq, rfl⟩ := List.mem_map.mp he
      exact hpair.rel_of_mem_take_of_mem_drop hq hps

def c8_db : DB :=
  { products := [⟨1, 0, true⟩, ⟨2, 0, true⟩], interactions := [] }

/-- C8 witness: with no interaction events the training attempt fails, the
service stays untrained, and the fallback equality of
`C8_unseen_session_popularity` holds at the concrete inputs. -/
theorem C8_witness :
    (get_user_recommendations c8_db initial_state "zz" 2).1
      = get_popular_recommendations c8_db 2 :=
  (C8_unseen_session_popularity c8_db initial_state "zz" 2
    (Or.inl (by simp [initial_state, train_model, prepare_interaction_data, c8_db]))).1

def c3_db : DB :=
  { products := [⟨10, 0, true⟩, ⟨20, 0, true⟩]
    interactions := [⟨"s", 10, "view", 0⟩, ⟨"s", 20, "view", 1⟩] }

lemma c3_unique_sessions : unique_sessions c3_db = ["s"] := by
  norm_num [unique_sessions, user_item_df, interaction_keys, c3_db,
    List.dedup, List.pwFilter]

lemma c3_unique_products : unique_products c3_db = [10, 20] := by
  norm_num [unique_products, user_item_df, interaction_keys, c3_db,
    List.dedup, List.pwFilter]

lemma c3_m00 : built_matrix c3_db 0 0 = 1 := by
  norm_num [built_matrix, unique_sessions, unique_products, user_item_df,
    interaction_keys, aggregated_weight, get_interaction_weight, c3_db,
    List.dedup, List.pwFilter, List.find?]

lemma c3_m01 : built_matrix c3_db 0 1 = 1 := by
  norm_num [built_matrix, unique_sessions, unique_products, user_item_df,
    interaction_keys, aggregated_weight, get_interaction_weight, c3_db,
    List.dedup, List.pwFilter, List.find?]

lemma c3_S00 : compute_item_similarity_matrix (built_matrix c3_db) 1 0 0 = 1 := by
  rw [compute_item_similarity_matrix, if_pos rfl]

lemma c3_S01 : compute_item_similarity_matrix (built_matrix c3_db) 1 0 1 = 1 := by
  have hc0 : col_norm (built_matrix c3_db) 1 0 = 1 := by
    rw [col_norm, Finset.sum_range_one, c3_m00]
    norm_num
  have hc1 : col_norm (built_matrix c3_db) 1 1 = 1 := by
    rw [col_norm, Finset.sum_range_one, c3_m01]
    norm_num
  have hd : col_dot (built_matrix c3_db) 1 0 1 = 1 := by
    rw [col_dot, Finset.sum_range_one, c3_m00, c3_m01]
    norm_num
  rw [compute_item_similarity_matrix, if_neg (by norm_num),
    if_pos ⟨by rw [hc0]; norm_num, by rw [hc1]; norm_num⟩, hd, hc0, hc1]
  norm_num

lemma c3_trained : (train_model c3_db initial_state).2.is_trained = true := by
  simp [train_model, prepare_interaction_data, c3_db]

lemma c3_item_mapping : (train_model c3_db initial_state).2.item_mapping
    = [10, 20] := by
  simp only [train_model, prepare_interaction_data]
  rw [if_neg (by simp [c3_db])]
  simpa using c3_unique_products

lemma c3_item_sim : (train_model c3_db initial_state).2.item_similarity_matrix
    = some (compute_item_similarity_matrix (built_matrix c3_db) 1) := by
  simp only [train_model, prepare_interaction_data]
  rw [if_neg (by simp [c3_db])]
  simp [c3_unique_sessions]

lemma c3_lookup10 : lookup_active c3_db 10
    = some { id := 10, category := 0, is_active := true } := by
  norm_num [lookup_active, c3_db, List.find?]

/-- C3 is a code bug: the source's `# Exclude self` line drops only position
0 of the reversed argsort, which under a similarity tie holds ANOTHER item.
Training on `c3_db` (one session viewed both products) gives the 1×2
interaction matrix [[1,1]]; both item columns are the vector [1], so the
item-similarity row of product 10 is [1, 1], the reversed (stable) argsort
is [1, 0], dropping its head drops item index 1, and the queried product 10
itself is returned with reason "item_similarity" and similarity 1 —
contradicting the claim that the queried product is never included. -/
theorem C3_self_not_excluded :
    ((get_similar_products c3_db (train_model c3_db initial_state).2 10 5).1.map
      fun e => (e.product_id, e.reason)) = [(10, "item_similarity")] := by
  unfold get_similar_products
  rw [if_pos c3_trained]
  rw [if_neg (by simp [c3_trained, c3_item_mapping])]
  rw [c3_item_sim]
  simp only [c3_item_mapping]
  norm_num [List.indexOf_cons, List.insertionSort, List.orderedInsert,
    c3_S00, c3_S01, c3_lookup10, List.range_succ, List.filterMap_cons]

/-- C1 counterexample: row 1 is different from the target row 0 and has the
NONZERO rating `-2` in column 0, so under the claim's candidate condition
`M[r][i] ≠ 0` it is the single rater, is selected, has similarity `1 > 0`,
and the claimed prediction is `(1·(−2))/|1| = −2` (computed by
`spec_predict_rating`, the claim's own wording); the source's candidate test
`ratings[i] > 0` instead rejects the row and `fast_predict_rating` returns
`0`. -/
theorem C1_counterexample :
    Mc1 1 0 ≠ 0 ∧
    spec_predict_rating Mc1 Sc1 2 0 0 1 = -2 ∧
    fast_predict_rating Mc1 Sc1 2 0 0 1 = 0 := by
  refine ⟨by norm_num [Mc1], ?_, ?_⟩
  · norm_num [spec_predict_rating, Mc1, Sc1, List.range_succ, List.filterMap_cons,
      List.insertionSort, List.orderedInsert, List.foldl]
  · norm_num [fast_predict_rating, selected_tuples, candidate_tuples, Mc1, Sc1,
      List.range_succ, List.filterMap_cons, List.insertionSort, List.orderedInsert]

end ShopSmart
